import Mathlib

/-!
Shallow embedding of the Focus-Flow backend (`src/backend`), covering the
session lifecycle, statistics, calendar-link and breakdown-parsing logic of
`routers/sessions.py` and `routers/breakdown.py`.

Modelling conventions:
* `datetime` values are UTC instants measured in integer microseconds since the
  Unix epoch (Python `datetime` has microsecond resolution); `date()` is the
  epoch-day number `fdiv t 86400000000`.
* The SQL table of `FocusSession` rows is a `List FocusSession`; `SELECT ...
  WHERE` is `List.filter`, `ORDER BY started_at DESC` is an insertion sort by
  descending `started_at`, an `INSERT` appends, and SQLAlchemy's
  `one_or_none()` (which raises when several rows match) is `oneOrNone`.
* Each endpoint is a pure function of its inputs, the current time, the fresh
  uuid, and the store; mutating endpoints also return the updated store.
* HTTP error responses are the constructors of `ApiError`.
-/

namespace FocusFlow

/-! ### Python string helpers -/

/-- The whitespace characters stripped by Python's `str.strip()` (ASCII part:
space, tab, newline, carriage return, vertical tab, form feed). -/
def isPyWs (c : Char) : Bool :=
  c = ' ' || c = '\t' || c = '\n' || c = '\r' || c = '\x0b' || c = '\x0c'

/-- Strip `isPyWs` characters from both ends of a character list. -/
def pyStripList (l : List Char) : List Char :=
  ((l.dropWhile isPyWs).reverse.dropWhile isPyWs).reverse

/-- Python `str.strip()`. -/
def pyStrip (s : String) : String :=
  String.mk (pyStripList s.toList)

/-! ### Data model (`models.py`) -/

/-- Embedding of `models.FocusSession`: one row of the focus-session table.
`started_at`/`ended_at` are UTC epoch microseconds. -/
structure FocusSession where
  id : String
  user_id : String
  task_title : String
  started_at : Int
  ended_at : Option Int
deriving DecidableEq

/-- The error responses raised by the session endpoints:
400 missing `X-User-Id` header, 404 session not found,
400 "Session already ended", and SQLAlchemy's `MultipleResultsFound`
(a 500; unreachable in the real database because `id` is the primary key). -/
inductive ApiError where
  | missingIdentity
  | notFound
  | invalidState
  | multipleResults
deriving DecidableEq

/-- Embedding of `_require_user_id`: `if not user_id: raise HTTPException(400, ...)`.
Both an absent header (`None`) and an empty string are falsy. -/
def _require_user_id : Option String → Except ApiError String
  | none => .error .missingIdentity
  | some uid => if uid = "" then .error .missingIdentity else .ok uid

/-- The `WHERE FocusSession.id == session_id, FocusSession.user_id == uid`
scope used by End and Calendar-Link. -/
def sessionScope (sid uid : String) (s : FocusSession) : Bool :=
  s.id = sid && s.user_id = uid

/-- SQLAlchemy `one_or_none()`: `some none` when no row matches, `some (some s)`
for exactly one match, `none` (= `MultipleResultsFound`) otherwise. -/
def oneOrNone (p : FocusSession → Bool) (store : List FocusSession) :
    Option (Option FocusSession) :=
  match store.filter p with
  | [] => some none
  | [s] => some (some s)
  | _ => none

/-- Replace the first row satisfying `p` (the in-place mutation of the single
object returned by `one_or_none`). -/
def replaceFirst (p : FocusSession → Bool) (new : FocusSession) :
    List FocusSession → List FocusSession
  | [] => []
  | s :: rest => if p s then new :: rest else s :: replaceFirst p new rest

/-! ### Session lifecycle (`routers/sessions.py`) -/

/-- Embedding of `start_session`: insert a fresh row with the trimmed title (or `"Focus"`
when the trimmed title is empty), `started_at = now`, no `ended_at`.
`fresh` is the generated uuid, `now` the current UTC time. -/
def start_session (uid? : Option String) (task_title : String) (fresh : String)
    (now : Int) (store : List FocusSession) :
    Except ApiError FocusSession × List FocusSession :=
  match _require_user_id uid? with
  | .error e => (.error e, store)
  | .ok uid =>
    let t := pyStrip task_title
    let session : FocusSession :=
      { id := fresh, user_id := uid,
        task_title := if t = "" then "Focus" else t,
        started_at := now, ended_at := none }
    (.ok session, store ++ [session])

/-- Embedding of `end_session`: look up the row scoped to (id, user); 404 when absent,
400 when `ended_at` is already set, otherwise set `ended_at := now`. -/
def end_session (uid? : Option String) (sid : String) (now : Int)
    (store : List FocusSession) :
    Except ApiError FocusSession × List FocusSession :=
  match _require_user_id uid? with
  | .error e => (.error e, store)
  | .ok uid =>
    match oneOrNone (sessionScope sid uid) store with
    | none => (.error .multipleResults, store)
    | some none => (.error .notFound, store)
    | some (some fs) =>
      match fs.ended_at with
      | some _ => (.error .invalidState, store)
      | none =>
        let fs' := { fs with ended_at := some now }
        (.ok fs', replaceFirst (sessionScope sid uid) fs' store)

/-- The `ORDER BY started_at DESC` relation. -/
def startedDesc (a b : FocusSession) : Prop :=
  b.started_at ≤ a.started_at

instance : DecidableRel startedDesc :=
  fun a b => inferInstanceAs (Decidable (b.started_at ≤ a.started_at))

instance : IsTotal FocusSession startedDesc :=
  ⟨fun a b => le_total b.started_at a.started_at⟩

instance : IsTrans FocusSession startedDesc :=
  ⟨fun _ _ _ hab hbc => le_trans hbc hab⟩

/-- Python's `sessions[:limit]` slice: an ordinary prefix for a non-negative
`limit`, and all but the final `-limit` elements for a negative one. -/
def pySlice (l : List α) (limit : Int) : List α :=
  if 0 ≤ limit then l.take limit.toNat
  else l.take (l.length - (-limit).toNat)

/-- Embedding of `list_sessions`: the caller's rows ordered by `started_at` descending,
then `sessions[:limit]`. -/
def list_sessions (uid? : Option String) (limit : Int)
    (store : List FocusSession) : Except ApiError (List FocusSession) :=
  match _require_user_id uid? with
  | .error e => .error e
  | .ok uid =>
    let sessions :=
      List.insertionSort startedDesc (store.filter (fun s => s.user_id = uid))
    .ok (pySlice sessions limit)

/-! ### Stats (`get_stats`) -/

/-- The response of `GET /api/stats`. -/
structure Stats where
  total_sessions : Nat
  total_minutes : Int
  today_sessions : Nat
  today_minutes : Int
deriving DecidableEq

/-- Python `datetime.date()` of a UTC instant, as the epoch-day number. -/
def epochDay (t : Int) : Int :=
  Int.fdiv t 86400000000

/-- Embedding of `max(0, int((ended_at - started_at).total_seconds() // 60))`:
the floor of the duration in minutes, clamped at zero
(`//` is floor division; one minute is 60000000 microseconds). -/
def durationMin (startUs endUs : Int) : Int :=
  max 0 (Int.fdiv (endUs - startUs) 60000000)

/-- One iteration of the `for s in sessions` loop of `get_stats`.  A session
without `ended_at` is skipped entirely (`started_at` is a non-nullable column,
so the `not s.started_at` half of the guard never fires). -/
def statsStep (today : Int) (acc : Stats) (s : FocusSession) : Stats :=
  match s.ended_at with
  | none => acc
  | some e =>
    let d := durationMin s.started_at e
    let acc := { acc with total_minutes := acc.total_minutes + d }
    if epochDay s.started_at = today then
      { acc with today_sessions := acc.today_sessions + 1,
                 today_minutes := acc.today_minutes + d }
    else acc

/-- Embedding of `get_stats`: load all of the caller's rows, then fold the counting loop
starting from `total_sessions = len(sessions)` and zeroed accumulators. -/
def get_stats (uid? : Option String) (now : Int) (store : List FocusSession) :
    Except ApiError Stats :=
  match _require_user_id uid? with
  | .error e => .error e
  | .ok uid =>
    let sessions := store.filter (fun s => s.user_id = uid)
    let today := epochDay now
    .ok (sessions.foldl (statsStep today)
      { total_sessions := sessions.length, total_minutes := 0,
        today_sessions := 0, today_minutes := 0 })

/-! ### Calendar link (`get_calendar_link`) -/

/-- Civil date from an epoch-day number (proleptic Gregorian, as used by
Python `datetime`): returns (year, month, day). -/
def civilFromDays (z0 : Int) : Int × Int × Int :=
  let z := z0 + 719468
  let era := Int.fdiv z 146097
  let doe := z - era * 146097
  let yoe := Int.fdiv (doe - Int.fdiv doe 1460 + Int.fdiv doe 36524 -
      Int.fdiv doe 146096) 365
  let y := yoe + era * 400
  let doy := doe - (365 * yoe + Int.fdiv yoe 4 - Int.fdiv yoe 100)
  let mp := Int.fdiv (5 * doy + 2) 153
  let d := doy - Int.fdiv (153 * mp + 2) 5 + 1
  let m := mp + (if mp < 10 then 3 else -9)
  (y + (if m ≤ 2 then 1 else 0), m, d)

/-- Zero-pad the decimal form of a non-negative integer to `w` digits. -/
def padZ (w : Nat) (n : Int) : String :=
  let s := toString n.toNat
  String.mk (List.replicate (w - s.length) '0') ++ s

/-- Embedding of `_to_google_calendar_format`: `dt.strftime("%Y%m%dT%H%M%SZ")` of a UTC
instant.  (The `tzinfo is None` branch of the source only re-tags a naive
value as UTC; instants in this model are always UTC.) -/
def _to_google_calendar_format (t : Int) : String :=
  let day := epochDay t
  let rem := t - day * 86400000000
  let secs := Int.fdiv rem 1000000
  let h := Int.fdiv secs 3600
  let mi := Int.fdiv (secs % 3600) 60
  let s := secs % 60
  let ymd := civilFromDays day
  padZ 4 ymd.1 ++ padZ 2 ymd.2.1 ++ padZ 2 ymd.2.2 ++ "T" ++
    padZ 2 h ++ padZ 2 mi ++ padZ 2 s ++ "Z"

/-- UTF-8 byte sequence of a character (for percent-encoding). -/
def utf8Bytes (c : Char) : List Nat :=
  let n := c.toNat
  if n < 128 then [n]
  else if n < 2048 then [192 + n / 64, 128 + n % 64]
  else if n < 65536 then [224 + n / 4096, 128 + (n / 64) % 64, 128 + n % 64]
  else [240 + n / 262144, 128 + (n / 4096) % 64, 128 + (n / 64) % 64,
        128 + n % 64]

/-- Upper-case hexadecimal digit. -/
def hexDigit (n : Nat) : Char :=
  if n < 10 then Char.ofNat (48 + n) else Char.ofNat (55 + n)

/-- Characters `urllib.parse.quote` leaves unencoded with the default
`safe='/'`: ASCII letters, digits, `_.-~`, and `/`. -/
def quoteKeeps (c : Char) : Bool :=
  (('a' ≤ c && c ≤ 'z') || ('A' ≤ c && c ≤ 'Z') || ('0' ≤ c && c ≤ '9') ||
   c = '_' || c = '.' || c = '-' || c = '~' || c = '/')

/-- Model of `urllib.parse.quote(s)` (default `safe='/'`): percent-encode the UTF-8
bytes of every character outside `quoteKeeps`. -/
def quote (s : String) : String :=
  String.mk (s.toList.flatMap (fun c =>
    if quoteKeeps c then [c]
    else (utf8Bytes c).flatMap (fun b => ['%', hexDigit (b / 16), hexDigit (b % 16)])))

/-- The response of `GET /api/sessions/{id}/calendar-link`. -/
structure CalendarLinkResult where
  url : String
  title : String
deriving DecidableEq

/-- Embedding of `get_calendar_link`: look up the row scoped to (id, user); 404 when
absent.  End of the range is `ended_at` when set, else `started_at` plus 60
minutes; the title is `(session.task_title or "Focus").strip()`; the URL is
built from the ordered params `action`, `text`, `dates` with quoted values. -/
def get_calendar_link (uid? : Option String) (sid : String)
    (store : List FocusSession) : Except ApiError CalendarLinkResult :=
  match _require_user_id uid? with
  | .error e => .error e
  | .ok uid =>
    match oneOrNone (sessionScope sid uid) store with
    | none => .error .multipleResults
    | some none => .error .notFound
    | some (some session) =>
      let start_dt := session.started_at
      let end_dt := match session.ended_at with
        | some e => e
        | none => start_dt + 60 * 60000000
      let title := pyStrip (if session.task_title = "" then "Focus"
        else session.task_title)
      let dates := _to_google_calendar_format start_dt ++ "/" ++
        _to_google_calendar_format end_dt
      let qs := "action=" ++ quote "TEMPLATE" ++ "&text=" ++ quote title ++
        "&dates=" ++ quote dates
      .ok { url := "https://calendar.google.com/calendar/render?" ++ qs,
            title := title }

/-! ### Breakdown parsing (`routers/breakdown.py`, `parse_steps_from_response`)

`json.loads` is modelled by a small JSON parser.  Model restriction: JSON
numbers are integers (`Json.num : Int`); a fractional or exponent part makes
the parse fail.  No input handled by the verified claims contains a
non-integral number. -/

/-- JSON values as produced by `json.loads`.  Objects keep the textual field
order; a duplicated key is resolved by `dictGet` taking the last binding,
as a Python `dict` does. -/
inductive Json where
  | null
  | bool (b : Bool)
  | num (n : Int)
  | str (s : String)
  | arr (items : List Json)
  | obj (fields : List (String × Json))

/-- Model of `dict.get`: the last binding of `key`, if any. -/
def dictGet (fields : List (String × Json)) (key : String) : Option Json :=
  ((fields.filter (fun kv => kv.1 = key)).getLast?).map (fun kv => kv.2)

/-- JSON whitespace. -/
def jsonWs (c : Char) : Bool :=
  c = ' ' || c = '\t' || c = '\n' || c = '\r'

def skipWs (cs : List Char) : List Char :=
  cs.dropWhile jsonWs

def hexVal (c : Char) : Option Nat :=
  if '0' ≤ c && c ≤ '9' then some (c.toNat - 48)
  else if 'a' ≤ c && c ≤ 'f' then some (c.toNat - 87)
  else if 'A' ≤ c && c ≤ 'F' then some (c.toNat - 70)
  else none

/-- Body of a JSON string literal after the opening quote; supports the
standard escapes and `\uXXXX` (surrogate pairs are not combined). -/
def parseStringChars : List Char → Option (List Char × List Char)
  | [] => none
  | '"' :: rest => some ([], rest)
  | '\\' :: 'u' :: h1 :: h2 :: h3 :: h4 :: rest =>
    match hexVal h1, hexVal h2, hexVal h3, hexVal h4 with
    | some a, some b, some c, some d =>
      (parseStringChars rest).map (fun (s, r) =>
        (Char.ofNat (((a * 16 + b) * 16 + c) * 16 + d) :: s, r))
    | _, _, _, _ => none
  | '\\' :: e :: rest =>
    let c? : Option Char :=
      if e = '"' then some '"'
      else if e = '\\' then some '\\'
      else if e = '/' then some '/'
      else if e = 'b' then some (Char.ofNat 8)
      else if e = 'f' then some (Char.ofNat 12)
      else if e = 'n' then some '\n'
      else if e = 'r' then some '\r'
      else if e = 't' then some '\t'
      else none
    match c? with
    | some c => (parseStringChars rest).map (fun (s, r) => (c :: s, r))
    | none => none
  | c :: rest => (parseStringChars rest).map (fun (s, r) => (c :: s, r))

/-- An integral JSON number: optional minus, digits with no leading zero,
and no fractional/exponent part (model restriction). -/
def parseNumber (cs : List Char) : Option (Json × List Char) :=
  let core : List Char → Option (Int × List Char) := fun ds =>
    let digits := ds.takeWhile Char.isDigit
    let rest := ds.dropWhile Char.isDigit
    if digits = [] then none
    else if digits.head? = some '0' && digits.length > 1 then none
    else
      match rest with
      | '.' :: _ => none
      | 'e' :: _ => none
      | 'E' :: _ => none
      | _ => some ((digits.foldl (fun a c => a * 10 + (c.toNat - 48)) 0 : Nat),
                   rest)
  match cs with
  | '-' :: rest => (core rest).map (fun (n, r) => (Json.num (-n), r))
  | _ => (core cs).map (fun (n, r) => (Json.num n, r))

mutual

def parseValue : Nat → List Char → Option (Json × List Char)
  | 0, _ => none
  | _ + 1, [] => none
  | fuel + 1, cs =>
    match cs with
    | 'n' :: 'u' :: 'l' :: 'l' :: rest => some (.null, rest)
    | 't' :: 'r' :: 'u' :: 'e' :: rest => some (.bool true, rest)
    | 'f' :: 'a' :: 'l' :: 's' :: 'e' :: rest => some (.bool false, rest)
    | '"' :: rest => (parseStringChars rest).map (fun (s, r) => (.str (String.mk s), r))
    | '[' :: rest => (parseArrayItems fuel (skipWs rest)).map
        (fun (items, r) => (.arr items, r))
    | '\x7b' :: rest => (parseObjectItems fuel (skipWs rest)).map
        (fun (fields, r) => (.obj fields, r))
    | _ => parseNumber cs

def parseArrayItems : Nat → List Char → Option (List Json × List Char)
  | 0, _ => none
  | _ + 1, ']' :: rest => some ([], rest)
  | fuel + 1, cs =>
    match parseValue fuel cs with
    | none => none
    | some (v, rest) =>
      match skipWs rest with
      | ',' :: rest2 =>
        (parseArrayItems fuel (skipWs rest2)).map (fun (vs, r) => (v :: vs, r))
      | ']' :: rest2 => some ([v], rest2)
      | _ => none

def parseObjectItems : Nat → List Char → Option (List (String × Json) × List Char)
  | 0, _ => none
  | _ + 1, '\x7d' :: rest => some ([], rest)
  | fuel + 1, cs =>
    match cs with
    | '"' :: cs1 =>
      match parseStringChars cs1 with
      | none => none
      | some (key, rest) =>
        match skipWs rest with
        | ':' :: rest2 =>
          match parseValue fuel (skipWs rest2) with
          | none => none
          | some (v, rest3) =>
            match skipWs rest3 with
            | ',' :: rest4 =>
              (parseObjectItems fuel (skipWs rest4)).map
                (fun (fs, r) => ((String.mk key, v) :: fs, r))
            | '\x7d' :: rest4 => some ([(String.mk key, v)], rest4)
            | _ => none
        | _ => none
    | _ => none

end

/-- Model of `json.loads`: parse a complete JSON document, requiring the whole input
(up to whitespace) to be consumed.  The fuel bound exceeds any possible
nesting depth. -/
def jsonLoads (s : String) : Option Json :=
  let cs := skipWs s.toList
  match parseValue (cs.length + 1) cs with
  | some (v, rest) => if skipWs rest = [] then some v else none
  | none => none

mutual

/-- Python `repr` of a decoded JSON value (reached via `str()` on container or
scalar values; strings are rendered with single quotes, escaping aside). -/
def pyRepr : Json → String
  | .null => "None"
  | .bool b => if b then "True" else "False"
  | .num n => toString n
  | .str s => "\x27" ++ s ++ "\x27"
  | .arr items => "[" ++ pyReprItems items ++ "]"
  | .obj fields => "\x7b" ++ pyReprFields fields ++ "\x7d"

def pyReprItems : List Json → String
  | [] => ""
  | [j] => pyRepr j
  | j :: rest => pyRepr j ++ ", " ++ pyReprItems rest

def pyReprFields : List (String × Json) → String
  | [] => ""
  | [(k, v)] => "\x27" ++ k ++ "\x27: " ++ pyRepr v
  | (k, v) :: rest => "\x27" ++ k ++ "\x27: " ++ pyRepr v ++ ", " ++ pyReprFields rest

end

/-- Python `str()` of a decoded JSON value. -/
def pyStr : Json → String
  | .str s => s
  | j => pyRepr j

def pyIntDigits (cs : List Char) : Option Int :=
  if cs ≠ [] && cs.all Char.isDigit then
    some ((cs.foldl (fun a c => a * 10 + (c.toNat - 48)) (0 : Nat) : Nat) : Int)
  else none

/-- Python `int(str)`: strip whitespace, optional sign, decimal digits.
(Underscore digit separators are not modelled.) -/
def pyIntOfString (s : String) : Option Int :=
  match pyStripList s.toList with
  | '+' :: rest => pyIntDigits rest
  | '-' :: rest => (pyIntDigits rest).map Int.neg
  | cs => pyIntDigits cs

/-- Python `int()` on a decoded JSON value; `none` is the `TypeError` /
`ValueError` the conversion raises. -/
def pyInt : Json → Option Int
  | .num n => some n
  | .bool b => some (if b then 1 else 0)
  | .str s => pyIntOfString s
  | _ => none

/-- One transient breakdown step (`BreakdownStep` of `main.py`). -/
structure BreakdownStep where
  title : String
  estimated_minutes : Int
deriving DecidableEq

/-- The per-element coercion
`{"title": str(s.get("title", "")), "estimated_minutes": int(s.get("estimated_minutes", 25))}`.
`none` when the element is not an object (`AttributeError` on `.get`) or when
`int()` fails. -/
def coerceStep : Json → Option BreakdownStep
  | .obj fields =>
    let t := (dictGet fields "title").getD (.str "")
    let m := (dictGet fields "estimated_minutes").getD (.num 25)
    (pyInt m).map (fun n => { title := pyStr t, estimated_minutes := n })
  | _ => none

/-- The three ways `parse_steps_from_response` can make the endpoint fail:
`json.JSONDecodeError` (HTTP 502 "Could not parse AI response as JSON"),
`ValueError("Expected a JSON array")` (generic 502), and an exception raised
while coercing an element (generic 502). -/
inductive ParseErr where
  | jsonDecodeError
  | expectedArray
  | coercionError
deriving DecidableEq

/-- The literal three-backtick fence. -/
def tickSeq : List Char :=
  [Char.ofNat 96, Char.ofNat 96, Char.ofNat 96]

/-- Python substring test (`pat in content`). -/
def containsSeq (pat : List Char) : List Char → Bool
  | [] => pat.isEmpty
  | c :: rest => pat.isPrefixOf (c :: rest) || containsSeq pat rest

/-- Split at the first occurrence of `pat`, returning the part before it and
the part after it. -/
def splitAtSeq (pat : List Char) : List Char → Option (List Char × List Char)
  | [] => if pat.isEmpty then some ([], []) else none
  | c :: rest =>
    if pat.isPrefixOf (c :: rest) then some ([], (c :: rest).drop pat.length)
    else (splitAtSeq pat rest).map (fun (a, b) => (c :: a, b))

/-- A match of `re.search(r"(3 backticks)(?:json)?\s*([\s\S]*?)(3 backticks)", _)`
anchored at the start of `cs`, returning the lazy capture group.  The greedy
`(?:json)?` and `\s*` prefixes never need backtracking because neither `json`
nor a whitespace character can overlap a backtick fence, and the lazy capture
extends exactly to the first closing fence. -/
def fenceTryAt (cs : List Char) : Option (List Char) :=
  if tickSeq.isPrefixOf cs then
    let r := cs.drop 3
    let r := if ['j', 's', 'o', 'n'].isPrefixOf r then r.drop 4 else r
    let r := r.dropWhile isPyWs
    (splitAtSeq tickSeq r).map (fun p => p.1)
  else none

/-- Model of `re.search`: the match at the leftmost position where one exists. -/
def fenceSearch : List Char → Option (List Char)
  | [] => none
  | c :: rest =>
    match fenceTryAt (c :: rest) with
    | some g => some g
    | none => fenceSearch rest

/-- Embedding of `parse_steps_from_response`: strip, pull the first fenced block out if a
fence is present, `json.loads`, require an array, and coerce each element. -/
def parse_steps_from_response (content : String) :
    Except ParseErr (List BreakdownStep) :=
  let content := pyStrip content
  let content :=
    if containsSeq tickSeq content.toList then
      match fenceSearch content.toList with
      | some g => pyStrip (String.mk g)
      | none => content
    else content
  match jsonLoads content with
  | none => .error .jsonDecodeError
  | some (.arr items) =>
    match items.mapM coerceStep with
    | some steps => .ok steps
    | none => .error .coercionError
  | some _ => .error .expectedArray

/-! ## Helper lemmas about the scoped lookup -/

theorem sessionScope_iff (sid uid : String) (s : FocusSession) :
    sessionScope sid uid s = true ↔ s.id = sid ∧ s.user_id = uid := by
  simp [sessionScope]

theorem filter_scope_nil (sid uid : String) (store : List FocusSession)
    (h : ∀ s ∈ store, ¬(s.id = sid ∧ s.user_id = uid)) :
    store.filter (sessionScope sid uid) = [] := by
  rw [List.filter_eq_nil_iff]
  intro s hs hscope
  exact h s hs ((sessionScope_iff sid uid s).mp hscope)

theorem filter_scope_eq (sid uid : String) (store : List FocusSession)
    (hnd : (store.map FocusSession.id).Nodup) (s : FocusSession)
    (hs : s ∈ store) (h1 : s.id = sid) (h2 : s.user_id = uid) :
    store.filter (sessionScope sid uid) = [s] := by
  induction store with
  | nil => cases hs
  | cons a tl ih =>
    have hnd2 : (∀ x ∈ tl, ¬x.id = a.id) ∧ (tl.map FocusSession.id).Nodup := by
      simpa using hnd
    obtain ⟨ha, hnd'⟩ := hnd2
    rcases List.mem_cons.mp hs with rfl | hmem
    · rw [List.filter_cons_of_pos ((sessionScope_iff sid uid s).mpr ⟨h1, h2⟩)]
      have htl : tl.filter (sessionScope sid uid) = [] := by
        rw [List.filter_eq_nil_iff]
        intro t ht hscope
        obtain ⟨ht1, _⟩ := (sessionScope_iff sid uid t).mp hscope
        exact ha t ht (ht1.trans h1.symm)
      rw [htl]
    · have hane : a.id ≠ sid := fun h' => ha s hmem (h1.trans h'.symm)
      have hsc : sessionScope sid uid a = false := by
        simp [sessionScope, hane]
      rw [List.filter_cons_of_neg (by simp [hsc])]
      exact ih hnd' hmem

theorem replaceFirst_scope_eq_map (sid uid : String) (now : Int)
    (store : List FocusSession) (hnd : (store.map FocusSession.id).Nodup)
    (s : FocusSession) (hs : s ∈ store) (h1 : s.id = sid) (h2 : s.user_id = uid) :
    replaceFirst (sessionScope sid uid) { s with ended_at := some now } store =
      store.map (fun t =>
        if t.id = sid then { t with ended_at := some now } else t) := by
  induction store with
  | nil => cases hs
  | cons a tl ih =>
    have hnd2 : (∀ x ∈ tl, ¬x.id = a.id) ∧ (tl.map FocusSession.id).Nodup := by
      simpa using hnd
    obtain ⟨ha, hnd'⟩ := hnd2
    rcases List.mem_cons.mp hs with rfl | hmem
    · rw [List.map_cons, replaceFirst, if_pos ((sessionScope_iff sid uid s).mpr ⟨h1, h2⟩),
        if_pos h1]
      have htl : ∀ t ∈ tl,
          (if t.id = sid then ({ t with ended_at := some now } : FocusSession) else t) = t := by
        intro t ht
        have : t.id ≠ sid := fun h' => ha t ht (h'.trans h1.symm)
        rw [if_neg this]
      rw [List.map_congr_left htl]
      simp
    · have hane : a.id ≠ sid := fun h' => ha s hmem (h1.trans h'.symm)
      have hsc : ¬(sessionScope sid uid a = true) := by
        simp [sessionScope, hane]
      rw [List.map_cons, replaceFirst, if_neg hsc, if_neg hane, ih hnd' hmem]

theorem mem_pySlice {α : Type} {s : α} {l : List α} {n : Int}
    (h : s ∈ pySlice l n) : s ∈ l := by
  unfold pySlice at h
  split at h <;> exact List.take_subset _ _ h

/-! ## Theorems -/

/-- C9: on every Start, End, List, Stats or Calendar-Link call whose caller
identity is absent (`none`) or empty (`some ""`), the operation fails with
`missingIdentity`; the store is returned unchanged by the mutating endpoints
and the result is the same for every store, so no row is read, created or
mutated by the failed request. -/
theorem missing_identity_C9 (uid? : Option String)
    (h : uid? = none ∨ uid? = some "") (title fresh sid : String)
    (now limit : Int) (store : List FocusSession) :
    start_session uid? title fresh now store = (.error .missingIdentity, store) ∧
    end_session uid? sid now store = (.error .missingIdentity, store) ∧
    list_sessions uid? limit store = .error .missingIdentity ∧
    get_stats uid? now store = .error .missingIdentity ∧
    get_calendar_link uid? sid store = .error .missingIdentity := by
  rcases h with h | h <;> subst h <;> exact ⟨rfl, rfl, rfl, rfl, rfl⟩

/-- Witness for C9 at concrete inputs: a missing header on Start and an empty
header on Stats. -/
theorem missing_identity_C9_witness :
    start_session none "T" "a" 0 [] = (.error .missingIdentity, []) ∧
    get_stats (some "") 0 [] = .error .missingIdentity :=
  ⟨(missing_identity_C9 none (Or.inl rfl) "T" "a" "x" 0 20 []).1,
   (missing_identity_C9 (some "") (Or.inr rfl) "T" "a" "x" 0 20 []).2.2.2.1⟩

/-- C5: breakdown response parsing — the bare JSON array input yields one step
(Do X, 20); the same content in a fenced block yields the identical result;
`"not json"` fails with the JSON-decode error; `"[]"` yields the empty list;
and in every coerced element a missing `title` defaults to `""` and a missing
`estimated_minutes` defaults to 25. -/
theorem parse_steps_C5 :
    parse_steps_from_response "[\x7b\"title\": \"Do X\", \"estimated_minutes\": 20\x7d]" =
      .ok [{ title := "Do X", estimated_minutes := 20 }] ∧
    parse_steps_from_response
        "```json\n[\x7b\"title\": \"Do X\", \"estimated_minutes\": 20\x7d]\n```" =
      .ok [{ title := "Do X", estimated_minutes := 20 }] ∧
    parse_steps_from_response "not json" = .error .jsonDecodeError ∧
    parse_steps_from_response "[]" = .ok [] ∧
    (∀ fields st, dictGet fields "title" = none →
      coerceStep (.obj fields) = some st → st.title = "") ∧
    (∀ fields st, dictGet fields "estimated_minutes" = none →
      coerceStep (.obj fields) = some st → st.estimated_minutes = 25) := by
  refine ⟨rfl, rfl, rfl, rfl, ?_, ?_⟩
  · intro fields st h hc
    simp only [coerceStep, h, Option.getD] at hc
    rcases Option.map_eq_some'.mp hc with ⟨n, _, hst⟩
    rw [← hst]
    rfl
  · intro fields st h hc
    simp only [coerceStep, h, Option.getD, pyInt, Option.map] at hc
    rw [← Option.some.inj hc]

/-- Witness for C5's defaulting clauses at concrete objects: an element without
`title` and an element without `estimated_minutes`. -/
theorem parse_steps_C5_witness :
    dictGet [("estimated_minutes", Json.num 30)] "title" = none ∧
    coerceStep (.obj [("estimated_minutes", Json.num 30)]) =
      some { title := "", estimated_minutes := 30 } ∧
    ({ title := "", estimated_minutes := 30 } : BreakdownStep).title = "" ∧
    dictGet [("title", Json.str "Read")] "estimated_minutes" = none ∧
    coerceStep (.obj [("title", Json.str "Read")]) =
      some { title := "Read", estimated_minutes := 25 } ∧
    ({ title := "Read", estimated_minutes := 25 } : BreakdownStep).estimated_minutes = 25 :=
  ⟨rfl, rfl,
   parse_steps_C5.2.2.2.2.1 [("estimated_minutes", Json.num 30)]
     { title := "", estimated_minutes := 30 } rfl rfl,
   rfl, rfl,
   parse_steps_C5.2.2.2.2.2 [("title", Json.str "Read")]
     { title := "Read", estimated_minutes := 25 } rfl rfl⟩

/-- Counterexample to C1 as stated: a session that is still active
(`ended_at = none`) and started on the current UTC day is counted in
`total_sessions` but contributes nothing to `today_sessions` (the loop skips
sessions without `ended_at` before the today check), whereas the claim says it
is counted in `today_sessions`. -/
theorem stats_counts_C1_counterexample :
    (FocusSession.mk "s1" "u" "T" 0 none).ended_at = none ∧
    epochDay (FocusSession.mk "s1" "u" "T" 0 none).started_at = epochDay 0 ∧
    get_stats (some "u") 0 [FocusSession.mk "s1" "u" "T" 0 none] =
      .ok { total_sessions := 1, total_minutes := 0,
            today_sessions := 0, today_minutes := 0 } :=
  ⟨rfl, rfl, rfl⟩

/-- Counterexample to C2 as stated: with two stored sessions, `limit = -1`
returns one session (Python's `sessions[:-1]` drops only the final element),
not the empty list the claim requires for a non-positive limit. -/
theorem list_sessions_C2_counterexample :
    list_sessions (some "u") (-1)
        [FocusSession.mk "a" "u" "T1" 0 none,
         FocusSession.mk "b" "u" "T2" 60000000 none] =
      .ok [FocusSession.mk "b" "u" "T2" 60000000 none] ∧
    [FocusSession.mk "b" "u" "T2" 60000000 none] ≠ ([] : List FocusSession) :=
  ⟨rfl, by decide⟩

/-- Counterexample to C8 as stated: a stored `task_title` of `" "` is blank
(whitespace-only) but truthy in Python, so `(task_title or "Focus").strip()`
yields `""`, not the placeholder `"Focus"` the claim requires. -/
theorem calendar_title_C8_counterexample :
    get_calendar_link (some "u") "a" [FocusSession.mk "a" "u" " " 0 none] =
      .ok { url := "https://calendar.google.com/calendar/render?action=TEMPLATE&text=&dates=19700101T000000Z/19700101T010000Z",
            title := "" } ∧
    ("" : String) ≠ "Focus" :=
  ⟨rfl, by decide⟩

/-- C3: End fails with `notFound` when no session with that id is owned by
that user and leaves the store unchanged; it fails with `invalidState` when
the session exists for that user with `ended_at` already set, again leaving
the store unchanged; otherwise it sets `ended_at := now` and persists exactly
that change, with every other row and every other field untouched. -/
theorem end_session_C3 (uid sid : String) (now : Int)
    (store : List FocusSession) (h : uid ≠ "")
    (hnd : (store.map FocusSession.id).Nodup) :
    ((∀ s ∈ store, ¬(s.id = sid ∧ s.user_id = uid)) →
      end_session (some uid) sid now store = (.error .notFound, store)) ∧
    (∀ s ∈ store, s.id = sid → s.user_id = uid →
      (∀ e, s.ended_at = some e →
        end_session (some uid) sid now store = (.error .invalidState, store)) ∧
      (s.ended_at = none →
        end_session (some uid) sid now store =
          (.ok { s with ended_at := some now },
            store.map (fun t =>
              if t.id = sid then { t with ended_at := some now } else t)))) := by
  have hu : _require_user_id (some uid) = .ok uid := by
    simp [_require_user_id, h]
  constructor
  · intro hnone
    have hf := filter_scope_nil sid uid store hnone
    simp [end_session, hu, oneOrNone, hf]
  · intro s hs h1 h2
    have hf := filter_scope_eq sid uid store hnd s hs h1 h2
    constructor
    · intro e he
      simp [end_session, hu, oneOrNone, hf, he]
    · intro he
      have hrf := replaceFirst_scope_eq_map sid uid now store hnd s hs h1 h2
      simp [end_session, hu, oneOrNone, hf, he, hrf]

/-- Witness for C3 at a concrete input: ending an active session stamps
`ended_at` and leaves every other field alone. -/
theorem end_session_C3_witness :
    end_session (some "u") "a" 100 [FocusSession.mk "a" "u" "T" 0 none] =
      (.ok (FocusSession.mk "a" "u" "T" 0 (some 100)),
       [FocusSession.mk "a" "u" "T" 0 (some 100)]) := by
  have h := (end_session_C3 "u" "a" 100 [FocusSession.mk "a" "u" "T" 0 none]
    (by decide) (by simp)).2 (FocusSession.mk "a" "u" "T" 0 none)
    (by simp) rfl rfl
  simpa using h.2 rfl

/-- C4: a user B who does not own a session id observes exactly the same
outcome from End and Calendar-Link as if the session did not exist — both
calls answer `notFound` on the real store and on the store with the id
erased, mutating nothing — and List for B only ever returns sessions whose
`user_id` is B, never another user's. -/
theorem cross_user_C4 (uidA uidB sid : String) (now limit : Int)
    (store : List FocusSession) (hB : uidB ≠ "") (hAB : uidA ≠ uidB)
    (hOwn : ∀ s ∈ store, s.id = sid → s.user_id = uidA) :
    end_session (some uidB) sid now store = (.error .notFound, store) ∧
    end_session (some uidB) sid now
        (store.filter (fun s => !decide (s.id = sid))) =
      (.error .notFound, store.filter (fun s => !decide (s.id = sid))) ∧
    get_calendar_link (some uidB) sid store = .error .notFound ∧
    get_calendar_link (some uidB) sid
        (store.filter (fun s => !decide (s.id = sid))) = .error .notFound ∧
    (∀ l, list_sessions (some uidB) limit store = .ok l →
      ∀ s ∈ l, s.user_id = uidB) := by
  have hu : _require_user_id (some uidB) = .ok uidB := by
    simp [_require_user_id, hB]
  have hnoB : ∀ s ∈ store, ¬(s.id = sid ∧ s.user_id = uidB) := by
    intro s hs ⟨hid, huser⟩
    exact hAB ((hOwn s hs hid).symm.trans huser)
  have hf := filter_scope_nil sid uidB store hnoB
  have hf2 : (store.filter (fun s => !decide (s.id = sid))).filter
      (sessionScope sid uidB) = [] := by
    apply filter_scope_nil
    intro s hs ⟨hid, _⟩
    have := (List.mem_filter.mp hs).2
    simp [hid] at this
  refine ⟨?_, ?_, ?_, ?_, ?_⟩
  · simp [end_session, hu, oneOrNone, hf]
  · simp [end_session, hu, oneOrNone, hf2]
  · simp [get_calendar_link, hu, oneOrNone, hf]
  · simp [get_calendar_link, hu, oneOrNone, hf2]
  · intro l hl s hsl
    simp only [list_sessions, hu] at hl
    have hmem : s ∈ List.insertionSort startedDesc
        (store.filter (fun t => t.user_id = uidB)) := by
      apply mem_pySlice
      rw [← Except.ok.inj hl] at hsl
      exact hsl
    have hmem2 : s ∈ store.filter (fun t => t.user_id = uidB) :=
      (List.perm_insertionSort startedDesc _).subset hmem
    simpa using (List.mem_filter.mp hmem2).2

/-- Witness for C4 at concrete inputs: user "b" probing user "a"'s session. -/
theorem cross_user_C4_witness :
    end_session (some "b") "s1" 5 [FocusSession.mk "s1" "a" "T" 0 none] =
      (.error .notFound, [FocusSession.mk "s1" "a" "T" 0 none]) ∧
    get_calendar_link (some "b") "s1" [FocusSession.mk "s1" "a" "T" 0 none] =
      .error .notFound := by
  have h := cross_user_C4 "a" "b" "s1" 5 20 [FocusSession.mk "s1" "a" "T" 0 none]
    (by decide) (by decide) (by intro s hs _; simp at hs; rw [hs])
  exact ⟨h.1, h.2.2.1⟩

/-- C7: for a session found for the caller, Calendar-Link's date range runs
from `started_at` to `ended_at` when present and to `started_at` plus 60
minutes otherwise, both rendered by the compact UTC `YYYYMMDDTHHMMSSZ`
formatter and joined by a slash; in particular a session started at
2024-01-01T10:00:00Z with no `ended_at` yields
`"20240101T100000Z/20240101T110000Z"`. -/
theorem calendar_range_C7 (uid sid : String) (store : List FocusSession)
    (h : uid ≠ "") (hnd : (store.map FocusSession.id).Nodup) :
    (∀ s ∈ store, s.id = sid → s.user_id = uid →
      get_calendar_link (some uid) sid store =
        .ok { url := "https://calendar.google.com/calendar/render?" ++
                ("action=" ++ quote "TEMPLATE" ++ "&text=" ++
                  quote (pyStrip (if s.task_title = "" then "Focus" else s.task_title)) ++
                  "&dates=" ++
                  quote (_to_google_calendar_format s.started_at ++ "/" ++
                    _to_google_calendar_format
                      (s.ended_at.getD (s.started_at + 60 * 60000000)))),
              title := pyStrip (if s.task_title = "" then "Focus" else s.task_title) }) ∧
    _to_google_calendar_format 1704103200000000 ++ "/" ++
        _to_google_calendar_format (1704103200000000 + 60 * 60000000) =
      "20240101T100000Z/20240101T110000Z" := by
  have hu : _require_user_id (some uid) = .ok uid := by
    simp [_require_user_id, h]
  refine ⟨?_, rfl⟩
  intro s hs h1 h2
  have hf := filter_scope_eq sid uid store hnd s hs h1 h2
  simp [get_calendar_link, hu, oneOrNone, hf]
  cases s.ended_at <;> rfl

set_option maxRecDepth 8000 in
/-- Witness for C7 at the claim's concrete input: a session started at
2024-01-01T10:00:00Z (epoch microseconds 1704103200000000) with no
`ended_at`. -/
theorem calendar_range_C7_witness :
    get_calendar_link (some "u") "a"
        [FocusSession.mk "a" "u" "Deep work" 1704103200000000 none] =
      .ok { url := "https://calendar.google.com/calendar/render?action=TEMPLATE&text=Deep%20work&dates=20240101T100000Z/20240101T110000Z",
            title := "Deep work" } := by
  have h := (calendar_range_C7 "u" "a"
    [FocusSession.mk "a" "u" "Deep work" 1704103200000000 none]
    (by decide) (by simp)).1
    (FocusSession.mk "a" "u" "Deep work" 1704103200000000 none)
    (by simp) rfl rfl
  exact h

/-- C8 (amended): for a session found for the caller, the resolved title —
returned and embedded in the URL — is the placeholder `"Focus"` when the
stored `task_title` is the empty string, and the trimmed `task_title`
otherwise; a whitespace-only `task_title` therefore resolves to the empty
string, not to `"Focus"`. -/
theorem calendar_title_C8_amended (uid sid : String) (store : List FocusSession)
    (h : uid ≠ "") (hnd : (store.map FocusSession.id).Nodup) :
    ∀ s ∈ store, s.id = sid → s.user_id = uid →
      ∀ r, get_calendar_link (some uid) sid store = .ok r →
        (s.task_title = "" → r.title = "Focus") ∧
        (s.task_title ≠ "" → r.title = pyStrip s.task_title) ∧
        r.url = "https://calendar.google.com/calendar/render?" ++
          ("action=" ++ quote "TEMPLATE" ++ "&text=" ++ quote r.title ++
            "&dates=" ++
            quote (_to_google_calendar_format s.started_at ++ "/" ++
              _to_google_calendar_format
                (s.ended_at.getD (s.started_at + 60 * 60000000)))) := by
  intro s hs h1 h2 r hr
  have hok := (calendar_range_C7 uid sid store h hnd).1 s hs h1 h2
  rw [hok] at hr
  have hre := Except.ok.inj hr
  subst hre
  refine ⟨?_, ?_, rfl⟩
  · intro ht
    simp [ht]
    rfl
  · intro ht
    simp [ht]

set_option maxRecDepth 8000 in
/-- Witness for C8 at a concrete input: a padded non-blank title is trimmed. -/
theorem calendar_title_C8_witness :
    get_calendar_link (some "u") "a"
        [FocusSession.mk "a" "u" " Write intro " 0 none] =
      .ok { url := "https://calendar.google.com/calendar/render?action=TEMPLATE&text=Write%20intro&dates=19700101T000000Z/19700101T010000Z",
            title := "Write intro" } ∧
    ("Write intro" : String) = pyStrip " Write intro " := by
  constructor
  · rfl
  · have h := calendar_title_C8_amended "u" "a"
      [FocusSession.mk "a" "u" " Write intro " 0 none] (by decide) (by simp)
      (FocusSession.mk "a" "u" " Write intro " 0 none) (by simp) rfl rfl
      { url := "https://calendar.google.com/calendar/render?action=TEMPLATE&text=Write%20intro&dates=19700101T000000Z/19700101T010000Z",
        title := "Write intro" } rfl
    exact h.2.1 (by decide)

/-- Closed form of the `get_stats` accumulation loop. -/
theorem foldl_statsStep (today : Int) (l : List FocusSession) (acc : Stats) :
    l.foldl (statsStep today) acc =
      { total_sessions := acc.total_sessions,
        total_minutes := acc.total_minutes +
          (l.filterMap (fun s => s.ended_at.map (durationMin s.started_at))).sum,
        today_sessions := acc.today_sessions +
          l.countP (fun s =>
            s.ended_at.isSome && decide (epochDay s.started_at = today)),
        today_minutes := acc.today_minutes +
          (l.filterMap (fun s =>
            if epochDay s.started_at = today
            then s.ended_at.map (durationMin s.started_at) else none)).sum } := by
  induction l generalizing acc with
  | nil => simp
  | cons s tl ih =>
    rw [List.foldl_cons, ih]
    cases he : s.ended_at with
    | none =>
      simp [statsStep, he, List.countP_cons, List.filterMap_cons]
    | some e =>
      by_cases hd : epochDay s.started_at = today
      · simp [statsStep, he, hd, List.countP_cons, List.filterMap_cons,
          Stats.mk.injEq]
        refine ⟨by omega, by omega, by omega⟩
      · simp [statsStep, he, hd, List.countP_cons, List.filterMap_cons,
          Stats.mk.injEq]
        omega

/-- C6: `total_minutes` is the sum, over the caller's sessions having both
timestamps, of `max(0, floor((ended_at - started_at) in seconds / 60))`
(in microseconds: `max 0 (fdiv (e - start) 60000000)`); sessions without
`ended_at` contribute no minutes. -/
theorem stats_total_minutes_C6 (uid : String) (now : Int)
    (store : List FocusSession) (h : uid ≠ "") :
    ∀ st, get_stats (some uid) now store = .ok st →
      st.total_minutes =
        ((store.filter (fun s => s.user_id = uid)).filterMap
          (fun s => s.ended_at.map
            (fun e => max 0 (Int.fdiv (e - s.started_at) 60000000)))).sum := by
  intro st hst
  have hu : _require_user_id (some uid) = .ok uid := by
    simp [_require_user_id, h]
  simp only [get_stats, hu] at hst
  rw [← Except.ok.inj hst, foldl_statsStep]
  have hfun : ∀ s : FocusSession,
      Option.map (durationMin s.started_at) s.ended_at =
        Option.map (fun e => max 0 (Int.fdiv (e - s.started_at) 60000000))
          s.ended_at := by
    intro s
    cases s.ended_at <;> rfl
  simp only [hfun]
  simp

/-- Witness for C6 at a concrete input: one completed 90-second session
(1 floor-minute) and the formula agree. -/
theorem stats_total_minutes_C6_witness :
    get_stats (some "u") 0 [FocusSession.mk "a" "u" "T" 0 (some 90000000)] =
      .ok { total_sessions := 1, total_minutes := 1,
            today_sessions := 1, today_minutes := 1 } ∧
    (1 : Int) =
      (([FocusSession.mk "a" "u" "T" 0 (some 90000000)].filter
          (fun s => s.user_id = "u")).filterMap
        (fun s => s.ended_at.map
          (fun e => max 0 (Int.fdiv (e - s.started_at) 60000000)))).sum :=
  ⟨rfl, stats_total_minutes_C6 "u" 0
    [FocusSession.mk "a" "u" "T" 0 (some 90000000)] (by decide)
    { total_sessions := 1, total_minutes := 1,
      today_sessions := 1, today_minutes := 1 } rfl⟩

/-- C1 (amended): `total_sessions` counts every session of the user
regardless of completion, but a still-active session (no `ended_at`)
contributes nothing to `today_sessions` or `today_minutes` — the today
counters range only over completed sessions whose `started_at` UTC date
equals the current UTC date. -/
theorem stats_counts_C1_amended (uid : String) (now : Int)
    (store : List FocusSession) (h : uid ≠ "") :
    ∀ st, get_stats (some uid) now store = .ok st →
      st.total_sessions = (store.filter (fun s => s.user_id = uid)).length ∧
      st.today_sessions = (store.filter (fun s => s.user_id = uid)).countP
        (fun s => s.ended_at.isSome &&
          decide (epochDay s.started_at = epochDay now)) ∧
      st.today_minutes = ((store.filter (fun s => s.user_id = uid)).filterMap
        (fun s => if epochDay s.started_at = epochDay now
          then s.ended_at.map (durationMin s.started_at) else none)).sum := by
  intro st hst
  have hu : _require_user_id (some uid) = .ok uid := by
    simp [_require_user_id, h]
  simp only [get_stats, hu] at hst
  rw [← Except.ok.inj hst, foldl_statsStep]
  simp

/-- Witness for C1 (amended) at a concrete input: one active and one
completed session, both started on the current UTC day — only the completed
one reaches the today counters. -/
theorem stats_counts_C1_amended_witness :
    get_stats (some "u") 0
        [FocusSession.mk "a" "u" "T" 0 none,
         FocusSession.mk "b" "u" "T" 0 (some 60000000)] =
      .ok { total_sessions := 2, total_minutes := 1,
            today_sessions := 1, today_minutes := 1 } ∧
    (2 : Nat) = ([FocusSession.mk "a" "u" "T" 0 none,
        FocusSession.mk "b" "u" "T" 0 (some 60000000)].filter
        (fun s => s.user_id = "u")).length ∧
    (1 : Nat) = ([FocusSession.mk "a" "u" "T" 0 none,
        FocusSession.mk "b" "u" "T" 0 (some 60000000)].filter
        (fun s => s.user_id = "u")).countP
        (fun s => s.ended_at.isSome &&
          decide (epochDay s.started_at = epochDay 0)) := by
  refine ⟨rfl, ?_, ?_⟩
  · exact (stats_counts_C1_amended "u" 0
      [FocusSession.mk "a" "u" "T" 0 none,
       FocusSession.mk "b" "u" "T" 0 (some 60000000)] (by decide)
      { total_sessions := 2, total_minutes := 1,
        today_sessions := 1, today_minutes := 1 } rfl).1
  · exact (stats_counts_C1_amended "u" 0
      [FocusSession.mk "a" "u" "T" 0 none,
       FocusSession.mk "b" "u" "T" 0 (some 60000000)] (by decide)
      { total_sessions := 2, total_minutes := 1,
        today_sessions := 1, today_minutes := 1 } rfl).2.1

/-- C2 (amended): List returns exactly a slice of the caller's sessions
sorted by `started_at` descending — there is a sorted-descending permutation
`S` of the user's stored rows such that the result is `S.take limit` for a
non-negative limit (everything when the limit exceeds the count, nothing for
zero) and, for a negative limit `-k`, all but the last `k` entries of `S`
(Python's `sessions[:limit]`; empty only when `k` reaches the count) — not
the empty list the original claim requires for every non-positive limit. -/
theorem list_sessions_C2_amended (uid : String) (limit : Int)
    (store : List FocusSession) (h : uid ≠ "") :
    ∀ l, list_sessions (some uid) limit store = .ok l →
      l.Sorted startedDesc ∧
      (∃ S : List FocusSession,
        S.Perm (store.filter (fun s => s.user_id = uid)) ∧
        S.Sorted startedDesc ∧
        (0 ≤ limit → l = S.take limit.toNat) ∧
        (limit < 0 → l = S.take (S.length - (-limit).toNat))) ∧
      (∀ s ∈ l, s ∈ store ∧ s.user_id = uid) ∧
      (0 ≤ limit →
        l.length =
          min limit.toNat (store.filter (fun s => s.user_id = uid)).length) ∧
      (limit < 0 →
        l.length =
          (store.filter (fun s => s.user_id = uid)).length - (-limit).toNat) ∧
      (((store.filter (fun s => s.user_id = uid)).length : Int) ≤ limit →
        l.Perm (store.filter (fun s => s.user_id = uid))) := by
  intro l hl
  have hu : _require_user_id (some uid) = .ok uid := by
    simp [_require_user_id, h]
  simp only [list_sessions, hu] at hl
  have hleq := (Except.ok.inj hl).symm
  subst hleq
  have hperm := List.perm_insertionSort startedDesc
    (store.filter (fun s => s.user_id = uid))
  have hlen := hperm.length_eq
  have hsorted := List.sorted_insertionSort startedDesc
    (store.filter (fun s => s.user_id = uid))
  refine ⟨?_, ?_, ?_, ?_, ?_, ?_⟩
  · unfold pySlice
    split <;> exact List.Pairwise.sublist (List.take_sublist _ _) hsorted
  · refine ⟨List.insertionSort startedDesc
      (store.filter (fun s => s.user_id = uid)), hperm, hsorted, ?_, ?_⟩
    · intro hpos
      unfold pySlice
      rw [if_pos hpos]
    · intro hneg
      unfold pySlice
      rw [if_neg (by omega)]
  · intro s hs
    have hmem := hperm.subset (mem_pySlice hs)
    have hm2 := List.mem_filter.mp hmem
    exact ⟨hm2.1, by simpa using hm2.2⟩
  · intro hpos
    unfold pySlice
    rw [if_pos hpos, List.length_take, hlen]
  · intro hneg
    unfold pySlice
    rw [if_neg (by omega), List.length_take]
    omega
  · intro hge
    unfold pySlice
    rw [if_pos (by omega), List.take_of_length_le (by omega)]
    exact hperm

/-- Witness for C2 (amended) at concrete inputs: two sessions of user "u",
default limit 20 returns both, newest first. -/
theorem list_sessions_C2_amended_witness :
    list_sessions (some "u") 20
        [FocusSession.mk "a" "u" "T1" 0 none,
         FocusSession.mk "b" "u" "T2" 60000000 none] =
      .ok [FocusSession.mk "b" "u" "T2" 60000000 none,
           FocusSession.mk "a" "u" "T1" 0 none] ∧
    (2 : Nat) = min (20 : Int).toNat
      ([FocusSession.mk "a" "u" "T1" 0 none,
        FocusSession.mk "b" "u" "T2" 60000000 none].filter
        (fun s => s.user_id = "u")).length := by
  constructor
  · rfl
  · have h := (list_sessions_C2_amended "u" 20
      [FocusSession.mk "a" "u" "T1" 0 none,
       FocusSession.mk "b" "u" "T2" 60000000 none] (by decide)
      [FocusSession.mk "b" "u" "T2" 60000000 none,
       FocusSession.mk "a" "u" "T1" 0 none] rfl).2.2.2.1 (by omega)
    exact h

/-! ## The stored-title invariant (C10) -/

theorem head_dropWhile_false (p : Char → Bool) (l : List Char) :
    ∀ c, (l.dropWhile p).head? = some c → p c = false := by
  induction l with
  | nil =>
    intro c hc
    simp [List.dropWhile] at hc
  | cons a tl ih =>
    intro c hc
    rw [List.dropWhile_cons] at hc
    by_cases hp : p a = true
    · rw [if_pos hp] at hc
      exact ih c hc
    · rw [if_neg hp] at hc
      simp at hc
      rw [← hc]
      exact Bool.eq_false_iff.mpr hp

theorem getLast?_dropWhile (p : Char → Bool) (l : List Char)
    (h : l.dropWhile p ≠ []) : (l.dropWhile p).getLast? = l.getLast? := by
  induction l with
  | nil => simp at h
  | cons a tl ih =>
    rw [List.dropWhile_cons] at h ⊢
    by_cases hp : p a = true
    · rw [if_pos hp] at h ⊢
      have htl : tl ≠ [] := by
        intro e
        subst e
        simp [List.dropWhile] at h
      rw [ih h]
      cases tl with
      | nil => exact absurd rfl htl
      | cons b t2 => rw [List.getLast?_cons_cons]
    · rw [if_neg hp]

theorem head?_pyStripList (l : List Char) :
    ∀ c, (pyStripList l).head? = some c → isPyWs c = false := by
  intro c hc
  unfold pyStripList at hc
  rw [List.head?_reverse] at hc
  have hne : (l.dropWhile isPyWs).reverse.dropWhile isPyWs ≠ [] := by
    intro e
    rw [e] at hc
    simp at hc
  rw [getLast?_dropWhile isPyWs _ hne, List.getLast?_reverse] at hc
  exact head_dropWhile_false isPyWs l c hc

theorem getLast?_pyStripList (l : List Char) :
    ∀ c, (pyStripList l).getLast? = some c → isPyWs c = false := by
  intro c hc
  unfold pyStripList at hc
  rw [List.getLast?_reverse] at hc
  exact head_dropWhile_false isPyWs _ c hc

theorem mem_replaceFirst {p : FocusSession → Bool} {n : FocusSession}
    {l : List FocusSession} {s : FocusSession}
    (h : s ∈ replaceFirst p n l) : s = n ∨ s ∈ l := by
  induction l with
  | nil => cases h
  | cons a tl ih =>
    unfold replaceFirst at h
    by_cases hp : p a = true
    · rw [if_pos hp] at h
      rcases List.mem_cons.mp h with rfl | hmem
      · exact Or.inl rfl
      · exact Or.inr (List.mem_cons_of_mem a hmem)
    · rw [if_neg hp] at h
      rcases List.mem_cons.mp h with rfl | hmem
      · exact Or.inr (List.mem_cons_self s tl)
      · rcases ih hmem with h1 | h2
        · exact Or.inl h1
        · exact Or.inr (List.mem_cons_of_mem a h2)

theorem oneOrNone_some_mem {p : FocusSession → Bool} {store : List FocusSession}
    {fs : FocusSession} (h : oneOrNone p store = some (some fs)) :
    fs ∈ store := by
  unfold oneOrNone at h
  cases hf : store.filter p with
  | nil =>
    rw [hf] at h
    simp at h
  | cons a tl =>
    cases tl with
    | nil =>
      rw [hf] at h
      simp at h
      subst h
      have ha : a ∈ store.filter p := by
        rw [hf]
        exact List.mem_cons_self a []
      exact List.mem_of_mem_filter ha
    | cons b t2 =>
      rw [hf] at h
      simp at h

/-- A row of the end-session update is either the stamped copy of a stored
row — same fields but for `ended_at` — or an untouched stored row. -/
theorem mem_end_session_snd (uid? : Option String) (sid : String) (now : Int)
    (store : List FocusSession) (s : FocusSession)
    (hs : s ∈ (end_session uid? sid now store).2) :
    s ∈ store ∨ ∃ fs ∈ store, s = { fs with ended_at := some now } := by
  unfold end_session at hs
  cases hu : _require_user_id uid? with
  | error e =>
    simp only [hu] at hs
    exact Or.inl hs
  | ok uid =>
    simp only [hu] at hs
    cases ho : oneOrNone (sessionScope sid uid) store with
    | none =>
      simp only [ho] at hs
      exact Or.inl hs
    | some o =>
      cases o with
      | none =>
        simp only [ho] at hs
        exact Or.inl hs
      | some fs =>
        simp only [ho] at hs
        cases he : fs.ended_at with
        | some e =>
          simp only [he] at hs
          exact Or.inl hs
        | none =>
          simp only [he] at hs
          rcases mem_replaceFirst hs with rfl | hmem
          · exact Or.inr ⟨fs, oneOrNone_some_mem ho, rfl⟩
          · exact Or.inl hmem

/-- The stores reachable from the empty table through the public operations.
List, Stats and Calendar-Link are read-only by construction (they return no
store), so Start and End are the only transitions. -/
inductive Reachable : List FocusSession → Prop where
  | empty : Reachable []
  | step_start (uid? : Option String) (title fresh : String) (now : Int)
      (store : List FocusSession) : Reachable store →
      Reachable (start_session uid? title fresh now store).2
  | step_end (uid? : Option String) (sid : String) (now : Int)
      (store : List FocusSession) : Reachable store →
      Reachable (end_session uid? sid now store).2

/-- C10: in every reachable store, every stored `task_title` is non-empty and
carries no leading or trailing whitespace — Start stores the trimmed caller
title or the literal `"Focus"`, and End copies `task_title` unchanged. -/
theorem task_title_C10 (store : List FocusSession) (h : Reachable store) :
    ∀ s ∈ store, s.task_title ≠ "" ∧
      (∀ c, s.task_title.toList.head? = some c → isPyWs c = false) ∧
      (∀ c, s.task_title.toList.getLast? = some c → isPyWs c = false) := by
  induction h with
  | empty =>
    intro s hs
    cases hs
  | step_start uid? title fresh now store hr ih =>
    intro s hs
    unfold start_session at hs
    cases hu : _require_user_id uid? with
    | error e =>
      simp only [hu] at hs
      exact ih s hs
    | ok uid =>
      simp only [hu] at hs
      simp only [List.mem_append, List.mem_singleton] at hs
      rcases hs with hs | hs
      · exact ih s hs
      · have htt : s.task_title =
            if pyStrip title = "" then "Focus" else pyStrip title := by
          rw [hs]
        rw [htt]
        by_cases ht : pyStrip title = ""
        · rw [if_pos ht]
          refine ⟨by decide, ?_, ?_⟩
          · intro c hc
            have hcF : c = 'F' := (Option.some.inj hc).symm
            subst hcF
            decide
          · intro c hc
            have hcs : c = 's' := (Option.some.inj hc).symm
            subst hcs
            decide
        · rw [if_neg ht]
          refine ⟨ht, ?_, ?_⟩
          · intro c hc
            exact head?_pyStripList title.toList c hc
          · intro c hc
            exact getLast?_pyStripList title.toList c hc
  | step_end uid? sid now store hr ih =>
    intro s hs
    rcases mem_end_session_snd uid? sid now store s hs with hmem | ⟨fs, hfs, rfl⟩
    · exact ih s hmem
    · exact ih fs hfs

/-- Witness for C10: the store reached by one Start with a padded title holds
a session whose title `"hi"` is non-empty and trimmed. -/
theorem task_title_C10_witness :
    ("hi" : String) ≠ "" ∧
    (∀ c, ("hi" : String).toList.head? = some c → isPyWs c = false) ∧
    (∀ c, ("hi" : String).toList.getLast? = some c → isPyWs c = false) := by
  have hr : Reachable [FocusSession.mk "a" "u" "hi" 0 none] :=
    Reachable.step_start (some "u") " hi " "a" 0 [] Reachable.empty
  exact task_title_C10 [FocusSession.mk "a" "u" "hi" 0 none] hr
    (FocusSession.mk "a" "u" "hi" 0 none) (by simp)

end FocusFlow
